import Mathlib

/-!
Verification of the route-selection / swap-execution pipeline and the
randomized multi-wallet scheduler of `src/autoBuy.ts`.

Numeric conventions: SOL amounts are rationals (`ℚ`); lamport balances are
naturals (`ℕ`), as `connection.getBalance` returns a nonnegative integer;
JavaScript `Math.floor` on nonnegative rationals is `Int.floor`, and
`Math.round` is `⌊x + 1/2⌋`.  `Math.random()` results are modelled as
rationals in `[0, 1)`.
-/

/-- `LAMPORTS_PER_SOL` from `@solana/web3.js`: 10^9 lamports per SOL. -/
def LAMPORTS_PER_SOL : ℚ := 1000000000

/-- `FEE_BUFFER_SOL` (line 59): the constant fee buffer of 0.005 SOL. -/
def FEE_BUFFER_SOL : ℚ := 5 / 1000

/-- JavaScript `Math.round` on a rational: round half up. -/
def jsRound (x : ℚ) : ℤ := ⌊x + 1 / 2⌋

/-- The `Wallet` interface (lines 26–29): a public key and a secret key.
The base58 public key is modelled as a `String`, the secret key bytes as a
list of naturals. -/
structure Wallet where
  publicKey : String
  secretKey : List ℕ
  deriving DecidableEq, Repr

/-- The Raydium SDK handle stored in the module-level mutable `raydium`
variable (line 31).  `Raydium.load` is called with `WALLETS[0]` as owner
(lines 71–81); the handle's contents are never inspected by the logic
verified here, so only the owner is recorded. -/
structure Raydium where
  owner : Wallet
  deriving DecidableEq, Repr

/-- `capBuyAmount` (lines 103–112), with the balance-oracle result and the
module globals `MIN_BUY_AMOUNT_SOL` and `FEE_BUFFER_SOL` passed as
parameters:

    const balanceSOL = balanceLamports / LAMPORTS_PER_SOL
    const maxAffordable = balanceSOL - FEE_BUFFER_SOL
    if (maxAffordable < MIN_BUY_AMOUNT_SOL) return 0
    return Math.min(desiredAmountSOL, maxAffordable)
-/
def capBuyAmount (balanceLamports : ℕ) (desiredAmountSOL minBuyAmountSOL feeBufferSOL : ℚ) : ℚ :=
  if (balanceLamports : ℚ) / LAMPORTS_PER_SOL - feeBufferSOL < minBuyAmountSOL then 0
  else min desiredAmountSOL ((balanceLamports : ℚ) / LAMPORTS_PER_SOL - feeBufferSOL)

/-- Modelled from the spec, for refinement comparison with `capBuyAmount`:
the Amount Capper contract `cap(identity, desiredAmount, minAllowed,
feeBuffer)` — "available = balance(identity) - feeBuffer.  If available <
minAllowed, return 0.  Otherwise return min(desiredAmount, available)." -/
def capAmountSpec (balanceSOL desiredAmount minAllowed feeBuffer : ℚ) : ℚ :=
  if balanceSOL - feeBuffer < minAllowed then 0
  else min desiredAmount (balanceSOL - feeBuffer)

/-- The random desired amount (lines 252–253):
`Math.random() * (MAX_BUY_AMOUNT_SOL - MIN_BUY_AMOUNT_SOL) + MIN_BUY_AMOUNT_SOL`. -/
def randomDesired (r minBuy maxBuy : ℚ) : ℚ :=
  r * (maxBuy - minBuy) + minBuy

/-- The random delay (line 265):
`Math.floor(Math.random() * (MAX_DELAY - MIN_DELAY + 1)) + MIN_DELAY`. -/
def randomDelay (r : ℚ) (minDelay maxDelay : ℤ) : ℤ :=
  ⌊r * ((maxDelay : ℚ) - (minDelay : ℚ) + 1)⌋ + minDelay

/-- The user-configurable parameters read from the environment
(lines 53–56). -/
structure Config where
  minDelay : ℤ
  maxDelay : ℤ
  minBuyAmountSOL : ℚ
  maxBuyAmountSOL : ℚ
  deriving DecidableEq, Repr

/-- The data consumed by one iteration of the `runAutoBuy` loop for one
wallet: the wallet, the lamport balance `connection.getBalance` returns at
cap time, and the two `Math.random()` draws of that iteration. -/
structure OrchInput where
  wallet : Wallet
  balanceLamports : ℕ
  randAmount : ℚ
  randDelay : ℚ
  deriving DecidableEq, Repr

/-- A scheduled per-wallet buy: the spec's `BuyTask` as actually produced by
`runAutoBuy` (wallet, capped amount, delay in milliseconds). -/
structure BuyTask where
  wallet : Wallet
  amountSOL : ℚ
  delay : ℤ
  deriving DecidableEq, Repr

/-- One iteration of the `runAutoBuy` loop body (lines 250–276): draw the
desired amount, cap it, skip (`none`) if the capped amount is below
`MIN_BUY_AMOUNT_SOL`, otherwise schedule a task with a random delay. -/
def walletStep (cfg : Config) (inp : OrchInput) : Option BuyTask :=
  let desiredAmountSOL := randomDesired inp.randAmount cfg.minBuyAmountSOL cfg.maxBuyAmountSOL
  let finalAmountSOL :=
    capBuyAmount inp.balanceLamports desiredAmountSOL cfg.minBuyAmountSOL FEE_BUFFER_SOL
  if finalAmountSOL < cfg.minBuyAmountSOL then none
  else some ⟨inp.wallet, finalAmountSOL, randomDelay inp.randDelay cfg.minDelay cfg.maxDelay⟩

/-- The spec's `RouteCandidate`: an amount-annotated candidate route as
produced by the SDK's amount-out simulation — simulated input and output
amounts, hop count, and the route-type tag logged at line 210. -/
structure RouteCandidate where
  amountIn : ℚ
  amountOut : ℚ
  hops : ℕ
  routeType : String
  deriving DecidableEq, Repr

/-- The best-first ordering on route candidates: higher simulated output
first, ties broken by fewer hops (spec §4.3 ordering key). -/
def routeBetter (a b : RouteCandidate) : Prop :=
  b.amountOut < a.amountOut ∨ (a.amountOut = b.amountOut ∧ a.hops ≤ b.hops)

instance routeBetterDec : DecidableRel routeBetter := fun a b =>
  if h1 : b.amountOut < a.amountOut then isTrue (Or.inl h1)
  else if h2 : a.amountOut = b.amountOut ∧ a.hops ≤ b.hops then isTrue (Or.inr h2)
  else isFalse (by
    intro hc
    rcases hc with hc | hc
    · exact h1 hc
    · exact h2 hc)

instance routeBetterTotal : IsTotal RouteCandidate routeBetter :=
  ⟨by
    intro a b
    rcases lt_trichotomy a.amountOut b.amountOut with h | h | h
    · exact Or.inr (Or.inl h)
    · rcases Nat.le_total a.hops b.hops with hh | hh
      · exact Or.inl (Or.inr ⟨h, hh⟩)
      · exact Or.inr (Or.inr ⟨h.symm, hh⟩)
    · exact Or.inl (Or.inl h)⟩

instance routeBetterTrans : IsTrans RouteCandidate routeBetter :=
  ⟨by
    intro a b c hab hbc
    rcases hab with h1 | ⟨e1, h1⟩ <;> rcases hbc with h2 | ⟨e2, h2⟩
    · exact Or.inl (h2.trans h1)
    · exact Or.inl (lt_of_le_of_lt (le_of_eq e2.symm) h1)
    · exact Or.inl (lt_of_lt_of_le h2 (le_of_eq e1.symm))
    · exact Or.inr ⟨e1.trans e2, h1.trans h2⟩⟩

/-- Modelled from the spec: the SDK call
`raydium.tradeV2.getAllRouteComputeAmountOut` (lines 167–199), whose code is
not part of this repository.  Given the viable amount-annotated candidates
the simulation produced, it returns them "ordered best-first": simulated
output amount descending, ties broken by preferring fewer hops (spec §4.3). -/
def getAllRouteComputeAmountOut (raw : List RouteCandidate) : List RouteCandidate :=
  List.insertionSort routeBetter raw

/-- Payload of `raydium.tradeV2.fetchRoutePoolBasicInfo` (line 135) plus the
structural paths of `getAllRoute` (lines 138–142); its contents are threaded
through to later SDK calls without being inspected by the logic verified
here. -/
structure PoolData where
  poolIds : List String
  deriving DecidableEq, Repr

/-- Payload of `raydium.tradeV2.fetchSwapRoutesData` (lines 145–160):
reserve/tick/mint data threaded through to later SDK calls; not inspected by
the logic verified here. -/
structure RouteData where
  mintIds : List String
  deriving DecidableEq, Repr

/-- Payload of `raydium.tradeV2.computePoolToPoolKeys` (lines 214–218). -/
structure PoolKeys where
  keyIds : List String
  deriving DecidableEq, Repr

/-- The `execute` closure returned by `raydium.tradeV2.swap`
(lines 221–234). -/
structure SwapBuild where
  buildId : String
  deriving DecidableEq, Repr

/-- The failures a `performBuy` call can encounter.  `sdkMissing` is the
guard throw of lines 118–120 (before the `try` block); every other
constructor is a rejection of one of the awaited SDK/RPC calls inside the
`try` block, or the explicit no-route throw of lines 201–203. -/
inductive SwapError where
  | sdkMissing
  | fetchPoolInfoFailed (msg : String)
  | fetchRoutesDataFailed (msg : String)
  | epochInfoFailed (msg : String)
  | noRouteFound
  | poolKeysFailed (msg : String)
  | buildFailed (msg : String)
  | executeFailed (msg : String)
  deriving DecidableEq, Repr

/-- The external interactions of one `performBuy` attempt.  Each field is
the outcome the corresponding SDK/RPC call would deliver during this
attempt: `simulate` gives, per input lamport amount, the viable candidates
amount-out simulation yields (the input to
`getAllRouteComputeAmountOut`), and the `Except String` fields model the
awaited calls that may reject. -/
structure SwapEnv where
  fetchRoutePoolBasicInfo : Except String PoolData
  fetchSwapRoutesData : Except String RouteData
  getEpochInfo : Except String ℕ
  simulate : ℤ → List RouteCandidate
  computePoolToPoolKeys : RouteCandidate → Except String PoolKeys
  swap : RouteCandidate → PoolKeys → Except String SwapBuild
  execute : SwapBuild → Except String (List String)

/-- What a successful swap attempt produced: the route selected for
execution and the submitted transaction ids. -/
structure SwapOutcome where
  best : RouteCandidate
  txIds : List String
  deriving DecidableEq, Repr

/-- Boolean success test for `Except`. -/
def exceptOk {ε α : Type} (e : Except ε α) : Bool :=
  match e with
  | Except.ok _ => true
  | Except.error _ => false

/-- The body of the `try` block of `performBuy` (lines 122–239): fetch pool
info, fetch route data, fetch epoch info, compute the amount-out candidates
for `Math.round(finalBuySOL * LAMPORTS_PER_SOL)` lamports, throw when no
route was found, select the candidate at index 0, compute its pool keys,
build the swap, and execute it. -/
def performBuyBody (env : SwapEnv) (finalBuySOL : ℚ) : Except SwapError SwapOutcome :=
  match env.fetchRoutePoolBasicInfo with
  | Except.error msg => Except.error (SwapError.fetchPoolInfoFailed msg)
  | Except.ok _poolData =>
    match env.fetchSwapRoutesData with
    | Except.error msg => Except.error (SwapError.fetchRoutesDataFailed msg)
    | Except.ok _routeData =>
      match env.getEpochInfo with
      | Except.error msg => Except.error (SwapError.epochInfoFailed msg)
      | Except.ok _epoch =>
        match getAllRouteComputeAmountOut
            (env.simulate (jsRound (finalBuySOL * LAMPORTS_PER_SOL))) with
        | [] => Except.error SwapError.noRouteFound
        | bestRoute :: _rest =>
          match env.computePoolToPoolKeys bestRoute with
          | Except.error msg => Except.error (SwapError.poolKeysFailed msg)
          | Except.ok poolKeys =>
            match env.swap bestRoute poolKeys with
            | Except.error msg => Except.error (SwapError.buildFailed msg)
            | Except.ok build =>
              match env.execute build with
              | Except.error msg => Except.error (SwapError.executeFailed msg)
              | Except.ok txIds => Except.ok ⟨bestRoute, txIds⟩

/-- The log lines relevant to the verified claims.  `errorInPerformBuy`
models `console.error` at line 241, which records the wallet identity and
the failure reason. -/
inductive LogEvent where
  | swapSuccess (walletKey : String) (txIds : List String)
  | errorInPerformBuy (walletKey : String) (reason : SwapError)
  deriving DecidableEq, Repr

/-- `performBuy` (lines 117–243).  The outer `Except` is propagation to the
caller: `Except.error` is an uncaught throw, `Except.ok logs` is a normal
return.  The `raydium`-missing guard (lines 118–120) precedes the `try`
block, so its throw propagates; every failure of the body is caught by the
`catch` of lines 240–242, logged with the wallet identity and reason, and
turned into a normal return. -/
def performBuy (raydium : Option Raydium) (env : SwapEnv) (wallet : Wallet)
    (finalBuySOL : ℚ) : Except SwapError (List LogEvent) :=
  match raydium with
  | none => Except.error SwapError.sdkMissing
  | some _ =>
    match performBuyBody env finalBuySOL with
    | Except.ok out => Except.ok [LogEvent.swapSuccess wallet.publicKey out.txIds]
    | Except.error e => Except.ok [LogEvent.errorInPerformBuy wallet.publicKey e]

/-- The log list a `performBuy` call with an initialized SDK handle
produces. -/
def caughtLogs (env : SwapEnv) (wallet : Wallet) (finalBuySOL : ℚ) : List LogEvent :=
  match performBuyBody env finalBuySOL with
  | Except.ok out => [LogEvent.swapSuccess wallet.publicKey out.txIds]
  | Except.error e => [LogEvent.errorInPerformBuy wallet.publicKey e]

/-- Observable events of a session, in the order they happen.  `snapshot`
is one line of `displayWalletBalances` (lines 89–98); `skipped` and
`scheduled` are the two outcomes of a `runAutoBuy` loop iteration;
`swapDone` is a scheduled `performBuy` callback returning normally with its
logs; `swapUncaught` is a scheduled callback ending in an uncaught throw. -/
inductive Event where
  | snapshot (walletKey : String) (lamports : ℕ)
  | skipped (walletKey : String)
  | scheduled (walletKey : String) (amountSOL : ℚ) (delay : ℤ)
  | swapDone (walletKey : String) (logs : List LogEvent)
  | swapUncaught (walletKey : String) (e : SwapError)
  deriving DecidableEq, Repr

/-- Does an event record the execution of a scheduled swap (as opposed to a
scheduling-pass event)? -/
def isSwapExecEvent : Event → Bool
  | Event.swapDone _ _ => true
  | Event.swapUncaught _ _ => true
  | _ => false

/-- The event one `runAutoBuy` loop iteration emits for its wallet: the
skip warning of lines 258–260, or the scheduling log of lines 266–270. -/
def decisionEvent (cfg : Config) (inp : OrchInput) : Event :=
  (walletStep cfg inp).elim (Event.skipped inp.wallet.publicKey)
    (fun t => Event.scheduled inp.wallet.publicKey t.amountSOL t.delay)

/-- `runAutoBuy` (lines 248–277): iterate over the wallets in order; for
each, cap a random desired amount, either skip or register a `setTimeout`
callback after a random delay.  Returns the emitted events and the list of
registered (not yet executed) tasks.  The loop never waits on a registered
callback — `setTimeout` only queues it — so no task runs here. -/
def runAutoBuy (cfg : Config) : List OrchInput → List Event × List BuyTask
  | [] => ([], [])
  | inp :: rest =>
    let tail := runAutoBuy cfg rest
    (walletStep cfg inp).elim
      (Event.skipped inp.wallet.publicKey :: tail.1, tail.2)
      (fun t =>
        (Event.scheduled inp.wallet.publicKey t.amountSOL t.delay :: tail.1, t :: tail.2))

/-- `initRaydium` (lines 66–84): throws when the wallet list is empty,
otherwise loads the SDK with `WALLETS[0]` as owner and stores the handle in
the module-level `raydium` variable. -/
def initRaydium (wallets : List Wallet) : Except String Raydium :=
  match wallets with
  | [] => Except.error "No wallets available for initialization."
  | w :: _ => Except.ok ⟨w⟩

/-- `displayWalletBalances` (lines 89–98): one balance-snapshot event per
wallet, reading the current balances. -/
def snapshotEvents (wallets : List Wallet) (bal : String → ℕ) : List Event :=
  wallets.map fun w => Event.snapshot w.publicKey (bal w.publicKey)

/-- Everything outside the session's own control: the configured wallets and
parameters, the `Math.random()` draws each wallet's loop iteration gets, the
SDK/RPC interaction outcomes of each wallet's scheduled swap attempt, and
the effect each wallet's executed swap has on its own lamport balance. -/
structure SessionCtx where
  cfg : Config
  wallets : List Wallet
  randAmount : String → ℚ
  randDelay : String → ℚ
  swapEnvOf : String → SwapEnv
  swapEffect : String → ℕ → ℕ

/-- The per-wallet inputs the `runAutoBuy` loop consumes.  The balance is
re-fetched per iteration (line 104); in the modelled execution the scheduled
swaps have not yet run during the scheduling pass, so each read returns the
session-start balance. -/
def orchInputs (ctx : SessionCtx) (bal0 : String → ℕ) : List OrchInput :=
  ctx.wallets.map fun w =>
    ⟨w, bal0 w.publicKey, ctx.randAmount w.publicKey, ctx.randDelay w.publicKey⟩

/-- Firing order of registered timers: ascending delay. -/
def delayLe (a b : BuyTask) : Prop := a.delay ≤ b.delay

instance delayLeDec : DecidableRel delayLe := fun a b =>
  inferInstanceAs (Decidable (a.delay ≤ b.delay))

/-- Apply a wallet's swap effect to the balance map when its `performBuy`
logs report a successful swap; otherwise leave balances unchanged. -/
def applyEffect (effect : String → ℕ → ℕ) (walletKey : String) (logs : List LogEvent)
    (bal : String → ℕ) : String → ℕ :=
  if logs.any fun l =>
      match l with
      | LogEvent.swapSuccess _ _ => true
      | _ => false
  then fun k => if k = walletKey then effect walletKey (bal walletKey) else bal k
  else bal

/-- Fire the registered timer callbacks (line 273–275: each callback runs
`performBuy(wallet, finalAmountSOL)`), threading the balance state.  An
uncaught throw in one callback does not stop the remaining timers. -/
def executeTasks (raydium : Option Raydium) (envOf : String → SwapEnv)
    (effect : String → ℕ → ℕ) : (String → ℕ) → List BuyTask → List Event × (String → ℕ)
  | bal, [] => ([], bal)
  | bal, t :: ts =>
    match performBuy raydium (envOf t.wallet.publicKey) t.wallet t.amountSOL with
    | Except.ok logs =>
      let bal1 := applyEffect effect t.wallet.publicKey logs bal
      let rest := executeTasks raydium envOf effect bal1 ts
      (Event.swapDone t.wallet.publicKey logs :: rest.1, rest.2)
    | Except.error e =>
      let rest := executeTasks raydium envOf effect bal ts
      (Event.swapUncaught t.wallet.publicKey e :: rest.1, rest.2)

/-- The main entrypoint IIFE (lines 282–299): initial balance snapshot, SDK
initialization, the `runAutoBuy` scheduling pass, the final balance
snapshot, and then the scheduled swap callbacks.  A fatal initialization
error is `Except.error` (the `catch` at lines 295–298 exits the process).
The timer callbacks are modelled as firing, in ascending delay order, after
the main task has completed — the admissible event-loop execution in which
every scheduled delay exceeds the main task's remaining duration; the main
task itself never awaits them (`setTimeout` is fire-and-forget). -/
def runSession (ctx : SessionCtx) (bal0 : String → ℕ) :
    Except String (List Event × (String → ℕ)) :=
  match initRaydium ctx.wallets with
  | Except.error e => Except.error e
  | Except.ok ray =>
    let ob := runAutoBuy ctx.cfg (orchInputs ctx bal0)
    let ex := executeTasks (some ray) ctx.swapEnvOf ctx.swapEffect bal0
      (List.insertionSort delayLe ob.2)
    Except.ok
      (snapshotEvents ctx.wallets bal0 ++ ob.1 ++ snapshotEvents ctx.wallets bal0 ++ ex.1,
       ex.2)

/-- The session result, defaulting to an empty trace on fatal
initialization failure. -/
def sessionOut (ctx : SessionCtx) (bal0 : String → ℕ) : List Event × (String → ℕ) :=
  match runSession ctx bal0 with
  | Except.ok p => p
  | Except.error _ => ([], bal0)

/-- The session's event trace. -/
def sessionTrace (ctx : SessionCtx) (bal0 : String → ℕ) : List Event :=
  (sessionOut ctx bal0).1

/-- A wallet's lamport balance after the session's swaps have run. -/
def sessionFinalBal (ctx : SessionCtx) (bal0 : String → ℕ) (walletKey : String) : ℕ :=
  (sessionOut ctx bal0).2 walletKey

/- ----- concrete sample data used by witnesses and counterexamples ----- -/

/-- A concrete wallet. -/
def wSample : Wallet := ⟨"W1", [7]⟩

/-- A concrete route candidate with simulated output 950. -/
def cand950 : RouteCandidate := ⟨100000000, 950, 1, "amm"⟩

/-- A concrete route candidate with simulated output 900. -/
def cand900 : RouteCandidate := ⟨100000000, 900, 2, "route"⟩

/-- A concrete environment in which every SDK/RPC call succeeds and the
simulation yields two viable candidates. -/
def envOk : SwapEnv where
  fetchRoutePoolBasicInfo := Except.ok ⟨["p1"]⟩
  fetchSwapRoutesData := Except.ok ⟨["m1"]⟩
  getEpochInfo := Except.ok 500
  simulate := fun _ => [cand900, cand950]
  computePoolToPoolKeys := fun _ => Except.ok ⟨["k1"]⟩
  swap := fun _ _ => Except.ok ⟨"b1"⟩
  execute := fun _ => Except.ok ["tx1"]

/-- A concrete environment whose very first awaited call rejects. -/
def envFail : SwapEnv where
  fetchRoutePoolBasicInfo := Except.error "boom"
  fetchSwapRoutesData := Except.ok ⟨["m1"]⟩
  getEpochInfo := Except.ok 500
  simulate := fun _ => [cand950]
  computePoolToPoolKeys := fun _ => Except.ok ⟨["k1"]⟩
  swap := fun _ _ => Except.ok ⟨"b1"⟩
  execute := fun _ => Except.ok ["tx1"]

/-- A concrete environment in which the simulation yields no viable
candidate. -/
def envNoRoute : SwapEnv where
  fetchRoutePoolBasicInfo := Except.ok ⟨["p1"]⟩
  fetchSwapRoutesData := Except.ok ⟨["m1"]⟩
  getEpochInfo := Except.ok 500
  simulate := fun _ => []
  computePoolToPoolKeys := fun _ => Except.ok ⟨["k1"]⟩
  swap := fun _ _ => Except.ok ⟨"b1"⟩
  execute := fun _ => Except.ok ["tx1"]

/-- A concrete initialized SDK handle. -/
def raySample : Raydium := ⟨wSample⟩

/-- The default configuration values of lines 53–56. -/
def cfgSample : Config := ⟨100, 5000, 1 / 10, 3⟩

/-- Session-start balances: 2 SOL for every wallet. -/
def balSample : String → ℕ := fun _ => 2000000000

/-- A concrete single-wallet session: both random draws 0, all SDK calls
succeed, and the executed swap leaves the wallet with 1.894995 SOL. -/
def ctxSample : SessionCtx where
  cfg := cfgSample
  wallets := [wSample]
  randAmount := fun _ => 0
  randDelay := fun _ => 0
  swapEnvOf := fun _ => envOk
  swapEffect := fun _ _ => 1894995000

/- ================= theorems ================= -/

lemma performBuy_some_eq (ray : Raydium) (env : SwapEnv) (w : Wallet) (amt : ℚ) :
    performBuy (some ray) env w amt = Except.ok (caughtLogs env w amt) := by
  cases h : performBuyBody env amt <;> simp only [performBuy, caughtLogs, h]

lemma runAutoBuy_cons (cfg : Config) (inp : OrchInput) (rest : List OrchInput) :
    runAutoBuy cfg (inp :: rest) =
      (walletStep cfg inp).elim
        (Event.skipped inp.wallet.publicKey :: (runAutoBuy cfg rest).1,
         (runAutoBuy cfg rest).2)
        (fun t =>
          (Event.scheduled inp.wallet.publicKey t.amountSOL t.delay ::
             (runAutoBuy cfg rest).1,
           t :: (runAutoBuy cfg rest).2)) := rfl

lemma runAutoBuy_trace_eq (cfg : Config) (inputs : List OrchInput) :
    (runAutoBuy cfg inputs).1 = inputs.map (decisionEvent cfg) := by
  induction inputs with
  | nil => rfl
  | cons inp rest ih =>
    rw [runAutoBuy_cons]
    cases h : walletStep cfg inp <;> simp [h, ih, decisionEvent]

lemma runAutoBuy_tasks_eq (cfg : Config) (inputs : List OrchInput) :
    (runAutoBuy cfg inputs).2 = inputs.filterMap (walletStep cfg) := by
  induction inputs with
  | nil => rfl
  | cons inp rest ih =>
    rw [runAutoBuy_cons]
    cases h : walletStep cfg inp <;> simp [h, ih]

lemma walletStep_some_delay (cfg : Config) (inp : OrchInput) (t : BuyTask)
    (h : walletStep cfg inp = some t) :
    t.delay = randomDelay inp.randDelay cfg.minDelay cfg.maxDelay := by
  simp only [walletStep] at h
  split at h
  · exact Option.noConfusion h
  · injection h with h2
    rw [← h2]

lemma executeTasks_events (ray : Raydium) (envOf : String → SwapEnv)
    (eff : String → ℕ → ℕ) (ts : List BuyTask) :
    ∀ bal : String → ℕ,
      (executeTasks (some ray) envOf eff bal ts).1 =
        ts.map fun t =>
          Event.swapDone t.wallet.publicKey
            (caughtLogs (envOf t.wallet.publicKey) t.wallet t.amountSOL) := by
  induction ts with
  | nil => intro bal; rfl
  | cons t ts ih =>
    intro bal
    unfold executeTasks
    rw [performBuy_some_eq]
    simp [ih]

lemma runSession_ok_parts (ctx : SessionCtx) (bal0 : String → ℕ) (tr : List Event)
    (bal1 : String → ℕ) (h : runSession ctx bal0 = Except.ok (tr, bal1)) :
    ∃ ray, initRaydium ctx.wallets = Except.ok ray ∧
      tr = snapshotEvents ctx.wallets bal0
        ++ (runAutoBuy ctx.cfg (orchInputs ctx bal0)).1
        ++ snapshotEvents ctx.wallets bal0
        ++ (executeTasks (some ray) ctx.swapEnvOf ctx.swapEffect bal0
            (List.insertionSort delayLe (runAutoBuy ctx.cfg (orchInputs ctx bal0)).2)).1 := by
  cases hi : initRaydium ctx.wallets with
  | error e =>
    simp only [runSession, hi] at h
    exact Except.noConfusion h
  | ok ray =>
    simp only [runSession, hi] at h
    refine ⟨ray, rfl, ?_⟩
    injection h with h2
    exact (congrArg Prod.fst h2).symm

lemma decisionEvent_cases (cfg : Config) (inp : OrchInput) :
    decisionEvent cfg inp = Event.skipped inp.wallet.publicKey
    ∨ ∃ t, walletStep cfg inp = some t
        ∧ decisionEvent cfg inp = Event.scheduled inp.wallet.publicKey t.amountSOL t.delay := by
  cases h : walletStep cfg inp with
  | none => exact Or.inl (by simp [decisionEvent, h])
  | some t => exact Or.inr ⟨t, rfl, by simp [decisionEvent, h]⟩

lemma sessionTrace_forms (ctx : SessionCtx) (bal0 : String → ℕ) (tr : List Event)
    (bal1 : String → ℕ) (h : runSession ctx bal0 = Except.ok (tr, bal1)) :
    ∀ e ∈ tr,
      (∃ w ∈ ctx.wallets, e = Event.snapshot w.publicKey (bal0 w.publicKey))
      ∨ (∃ inp ∈ orchInputs ctx bal0, e = decisionEvent ctx.cfg inp)
      ∨ (∃ t ∈ (runAutoBuy ctx.cfg (orchInputs ctx bal0)).2,
          e = Event.swapDone t.wallet.publicKey
                (caughtLogs (ctx.swapEnvOf t.wallet.publicKey) t.wallet t.amountSOL)) := by
  obtain ⟨ray, _, htr⟩ := runSession_ok_parts ctx bal0 tr bal1 h
  subst htr
  intro e hmem
  rcases List.mem_append.mp hmem with hmem | hexec
  · rcases List.mem_append.mp hmem with hmem | hsnap2
    · rcases List.mem_append.mp hmem with hsnap1 | horch
      · obtain ⟨w, hw, he⟩ := List.mem_map.mp hsnap1
        exact Or.inl ⟨w, hw, he.symm⟩
      · rw [runAutoBuy_trace_eq] at horch
        obtain ⟨inp, hinp, he⟩ := List.mem_map.mp horch
        exact Or.inr (Or.inl ⟨inp, hinp, he.symm⟩)
    · obtain ⟨w, hw, he⟩ := List.mem_map.mp hsnap2
      exact Or.inl ⟨w, hw, he.symm⟩
  · rw [executeTasks_events] at hexec
    obtain ⟨t, ht, he⟩ := List.mem_map.mp hexec
    refine Or.inr (Or.inr ⟨t, ?_, he.symm⟩)
    exact (List.perm_insertionSort delayLe _).mem_iff.mp ht

lemma sessionTrace_contains_swapDone (ctx : SessionCtx) (bal0 : String → ℕ)
    (tr : List Event) (bal1 : String → ℕ)
    (h : runSession ctx bal0 = Except.ok (tr, bal1)) :
    ∀ t ∈ (runAutoBuy ctx.cfg (orchInputs ctx bal0)).2,
      Event.swapDone t.wallet.publicKey
        (caughtLogs (ctx.swapEnvOf t.wallet.publicKey) t.wallet t.amountSOL) ∈ tr := by
  obtain ⟨ray, _, htr⟩ := runSession_ok_parts ctx bal0 tr bal1 h
  subst htr
  intro t ht
  refine List.mem_append.mpr (Or.inr ?_)
  rw [executeTasks_events]
  refine List.mem_map.mpr ⟨t, ?_, rfl⟩
  exact (List.perm_insertionSort delayLe _).mem_iff.mpr ht

lemma randomDelay_mem (a b : ℤ) (r : ℚ) (hab : a ≤ b) (h0 : 0 ≤ r) (h1 : r < 1) :
    a ≤ randomDelay r a b ∧ randomDelay r a b ≤ b := by
  set n : ℤ := b - a + 1 with hn
  have hnpos : 0 < n := by omega
  have hnQ : (0 : ℚ) < (n : ℚ) := by exact_mod_cast hnpos
  have hterm : ((b : ℚ) - (a : ℚ) + 1) = (n : ℚ) := by
    rw [hn]
    push_cast
    ring
  unfold randomDelay
  rw [hterm]
  have hf0 : 0 ≤ ⌊r * (n : ℚ)⌋ := Int.floor_nonneg.mpr (mul_nonneg h0 hnQ.le)
  have hflt : ⌊r * (n : ℚ)⌋ < n := by
    apply Int.floor_lt.mpr
    calc r * (n : ℚ) < 1 * (n : ℚ) := mul_lt_mul_of_pos_right h1 hnQ
    _ = (n : ℚ) := one_mul _
  omega

lemma randomDelay_eq_iff (a b k : ℤ) (r : ℚ) (hab : a ≤ b) :
    randomDelay r a b = k ↔
      (((k - a : ℤ) : ℚ) / ((b - a + 1 : ℤ) : ℚ) ≤ r
       ∧ r < (((k - a : ℤ) : ℚ) + 1) / ((b - a + 1 : ℤ) : ℚ)) := by
  set n : ℤ := b - a + 1 with hn
  have hnpos : 0 < n := by omega
  have hnQ : (0 : ℚ) < (n : ℚ) := by exact_mod_cast hnpos
  have hterm : ((b : ℚ) - (a : ℚ) + 1) = (n : ℚ) := by
    rw [hn]
    push_cast
    ring
  unfold randomDelay
  rw [hterm]
  have hstep : (⌊r * (n : ℚ)⌋ + a = k) ↔ ⌊r * (n : ℚ)⌋ = k - a := by omega
  rw [hstep, Int.floor_eq_iff, div_le_iff₀ hnQ, lt_div_iff₀ hnQ]

/-- C1 (amended): `capBuyAmount` computes `available = balance − feeBuffer`,
returns 0 when `available < minAllowed` and `min(desired, available)`
otherwise (refinement of the spec formula `capAmountSpec`); in particular,
when the desired amount is at least the floor amount and
`balance − feeBuffer ≥ desiredAmount`, it returns exactly `desiredAmount`. -/
theorem capBuyAmount_algorithm (b : ℕ) (d minA fee : ℚ) (hd : minA ≤ d) :
    capBuyAmount b d minA fee = capAmountSpec ((b : ℚ) / LAMPORTS_PER_SOL) d minA fee
    ∧ (d ≤ (b : ℚ) / LAMPORTS_PER_SOL - fee → capBuyAmount b d minA fee = d) := by
  constructor
  · rfl
  · intro havail
    unfold capBuyAmount
    rw [if_neg (not_lt.mpr (le_trans hd havail))]
    exact min_eq_left havail

theorem capBuyAmount_algorithm_witness :
    ((1 : ℚ) / 10 ≤ 1 / 10)
    ∧ ((1 : ℚ) / 10 ≤ ((2000000000 : ℕ) : ℚ) / LAMPORTS_PER_SOL - 5 / 1000)
    ∧ capBuyAmount 2000000000 (1 / 10) (1 / 10) (5 / 1000) = 1 / 10 :=
  ⟨by norm_num,
   by norm_num [LAMPORTS_PER_SOL],
   (capBuyAmount_algorithm 2000000000 (1 / 10) (1 / 10) (5 / 1000) (by norm_num)).2
     (by norm_num [LAMPORTS_PER_SOL])⟩

/-- C1 counterexample: with balance 0.06 SOL (60000000 lamports), fee buffer
0.005 and floor 0.1, a desired amount of 0.05 satisfies
`balance − feeBuffer ≥ desiredAmount`, yet `capBuyAmount` returns 0, not the
desired amount — the unconditional "no unnecessary reduction" clause of the
claim fails. -/
theorem capBuyAmount_noReduction_cex :
    ((1 : ℚ) / 20 ≤ ((60000000 : ℕ) : ℚ) / LAMPORTS_PER_SOL - 5 / 1000)
    ∧ capBuyAmount 60000000 (1 / 20) (1 / 10) (5 / 1000) = 0
    ∧ (0 : ℚ) ≠ 1 / 20 := by
  refine ⟨by norm_num [LAMPORTS_PER_SOL], ?_, by norm_num⟩
  norm_num [capBuyAmount, LAMPORTS_PER_SOL]

/-- C2: for every wallet balance and every nonnegative desired amount and
nonnegative floor amount, the capped amount is at most the desired amount
and at least 0. -/
theorem cappedAmount_bounds (b : ℕ) (d minA fee : ℚ) (hd : 0 ≤ d) (hm : 0 ≤ minA) :
    capBuyAmount b d minA fee ≤ d ∧ 0 ≤ capBuyAmount b d minA fee := by
  unfold capBuyAmount
  split
  · exact ⟨hd, le_refl 0⟩
  · rename_i h
    exact ⟨min_le_left _ _, le_min hd (le_trans hm (not_lt.mp h))⟩

theorem cappedAmount_bounds_witness :
    ((0 : ℚ) ≤ 3 / 2 ∧ (0 : ℚ) ≤ 1 / 10)
    ∧ capBuyAmount 1000000000 (3 / 2) (1 / 10) (5 / 1000) ≤ 3 / 2
    ∧ 0 ≤ capBuyAmount 1000000000 (3 / 2) (1 / 10) (5 / 1000) :=
  ⟨⟨by norm_num, by norm_num⟩,
   cappedAmount_bounds 1000000000 (3 / 2) (1 / 10) (5 / 1000) (by norm_num) (by norm_num)⟩

/-- C9 (amended): when the floor amount is strictly positive and the desired
amount is at least the floor, the capper returns either exactly 0 or a value
at least the floor — never a positive value strictly below it — so the
orchestrator's skip test `finalAmountSOL < MIN_BUY_AMOUNT_SOL` triggers
exactly when the capper returned 0; correspondingly, `walletStep` skips a
wallet exactly when its capped amount is 0. -/
theorem cap_floor_dichotomy (b : ℕ) (d minA fee : ℚ) (hm : 0 < minA) (hd : minA ≤ d) :
    (capBuyAmount b d minA fee = 0 ∨ minA ≤ capBuyAmount b d minA fee)
    ∧ (capBuyAmount b d minA fee < minA ↔ capBuyAmount b d minA fee = 0)
    ∧ (∀ (cfg : Config) (inp : OrchInput), 0 < cfg.minBuyAmountSOL →
        cfg.minBuyAmountSOL ≤
          randomDesired inp.randAmount cfg.minBuyAmountSOL cfg.maxBuyAmountSOL →
        (walletStep cfg inp = none ↔
          capBuyAmount inp.balanceLamports
            (randomDesired inp.randAmount cfg.minBuyAmountSOL cfg.maxBuyAmountSOL)
            cfg.minBuyAmountSOL FEE_BUFFER_SOL = 0)) := by
  have key : ∀ (b' : ℕ) (d' minA' fee' : ℚ), 0 < minA' → minA' ≤ d' →
      capBuyAmount b' d' minA' fee' = 0 ∨ minA' ≤ capBuyAmount b' d' minA' fee' := by
    intro b' d' minA' fee' hm' hd'
    unfold capBuyAmount
    split
    · exact Or.inl rfl
    · rename_i h
      exact Or.inr (le_min hd' (not_lt.mp h))
  have dichot : ∀ (b' : ℕ) (d' minA' fee' : ℚ), 0 < minA' → minA' ≤ d' →
      (capBuyAmount b' d' minA' fee' < minA' ↔ capBuyAmount b' d' minA' fee' = 0) := by
    intro b' d' minA' fee' hm' hd'
    rcases key b' d' minA' fee' hm' hd' with h0 | hge
    · rw [h0]
      exact ⟨fun _ => rfl, fun _ => hm'⟩
    · constructor
      · intro hlt
        exact absurd hge (not_le.mpr hlt)
      · intro h0
        rw [h0] at hge
        exact absurd hm' (not_lt.mpr hge)
  refine ⟨key b d minA fee hm hd, dichot b d minA fee hm hd, ?_⟩
  intro cfg inp hmc hdc
  have hiff := dichot inp.balanceLamports
    (randomDesired inp.randAmount cfg.minBuyAmountSOL cfg.maxBuyAmountSOL)
    cfg.minBuyAmountSOL FEE_BUFFER_SOL hmc hdc
  constructor
  · intro hnone
    apply hiff.mp
    by_contra hnot
    have : walletStep cfg inp ≠ none := by
      unfold walletStep
      rw [if_neg hnot]
      exact fun hcon => Option.noConfusion hcon
    exact this hnone
  · intro h0
    unfold walletStep
    rw [if_pos (hiff.mpr h0)]

theorem cap_floor_dichotomy_witness :
    ((0 : ℚ) < 1 / 10 ∧ (1 : ℚ) / 10 ≤ 3 / 2)
    ∧ (capBuyAmount 50000000 (3 / 2) (1 / 10) (5 / 1000) = 0
       ∨ 1 / 10 ≤ capBuyAmount 50000000 (3 / 2) (1 / 10) (5 / 1000)) :=
  ⟨⟨by norm_num, by norm_num⟩,
   (cap_floor_dichotomy 50000000 (3 / 2) (1 / 10) (5 / 1000) (by norm_num) (by norm_num)).1⟩

/-- C9 counterexample: with a floor amount of 0 (allowed by the claim's
hypothesis `minAllowed ≥ 0`) the capper returns 0 for a broke wallet, yet
the orchestrator's skip test `cappedAmount < minAmount` does not trigger —
`walletStep` schedules a 0-SOL buy instead of skipping — so the claimed
"triggers exactly when the capper returned 0" equivalence fails. -/
theorem cap_skip_mismatch_cex :
    ((1 : ℚ) / 2 ≥ 0 ∧ (0 : ℚ) ≥ 0)
    ∧ capBuyAmount 0 (1 / 2) 0 (5 / 1000) = 0
    ∧ ¬ capBuyAmount 0 (1 / 2) 0 (5 / 1000) < 0
    ∧ walletStep ⟨100, 5000, 0, 0⟩ ⟨⟨"W0", []⟩, 0, 0, 0⟩ = some ⟨⟨"W0", []⟩, 0, 100⟩ := by
  refine ⟨⟨by norm_num, le_refl 0⟩, ?_, ?_, ?_⟩
  · norm_num [capBuyAmount, LAMPORTS_PER_SOL]
  · norm_num [capBuyAmount, LAMPORTS_PER_SOL]
  · norm_num [walletStep, capBuyAmount, randomDesired, randomDelay, LAMPORTS_PER_SOL,
      FEE_BUFFER_SOL]

/-- C3: the computed route-candidate list is ordered best-first (sorted by
`routeBetter`, so when non-empty the candidate at index 0 has the highest
simulated output among all candidates), and whenever `performBuy`'s body
succeeds it has selected exactly the candidate at index 0 for execution. -/
theorem bestRoute_first_selected (env : SwapEnv) (amt : ℚ) :
    List.Sorted routeBetter
      (getAllRouteComputeAmountOut (env.simulate (jsRound (amt * LAMPORTS_PER_SOL))))
    ∧ ∀ best rest,
        getAllRouteComputeAmountOut (env.simulate (jsRound (amt * LAMPORTS_PER_SOL)))
          = best :: rest →
        (∀ c ∈ rest, c.amountOut ≤ best.amountOut)
        ∧ ∀ out, performBuyBody env amt = Except.ok out → out.best = best := by
  have hs : List.Sorted routeBetter
      (getAllRouteComputeAmountOut (env.simulate (jsRound (amt * LAMPORTS_PER_SOL)))) :=
    List.sorted_insertionSort routeBetter _
  refine ⟨hs, ?_⟩
  intro best rest hlist
  constructor
  · intro c hc
    have hrel : routeBetter best c := by
      have := List.sorted_cons.mp (hlist ▸ hs)
      exact this.1 c hc
    rcases hrel with h | ⟨he, _⟩
    · exact le_of_lt h
    · exact le_of_eq he.symm
  · intro out hout
    cases hp : env.fetchRoutePoolBasicInfo with
    | error m => simp [performBuyBody, hp] at hout
    | ok pd =>
      cases hr : env.fetchSwapRoutesData with
      | error m => simp [performBuyBody, hp, hr] at hout
      | ok rd =>
        cases he : env.getEpochInfo with
        | error m => simp [performBuyBody, hp, hr, he] at hout
        | ok ep =>
          cases hk : env.computePoolToPoolKeys best with
          | error m => simp [performBuyBody, hp, hr, he, hlist, hk] at hout
          | ok pk =>
            cases hw : env.swap best pk with
            | error m => simp [performBuyBody, hp, hr, he, hlist, hk, hw] at hout
            | ok bd =>
              cases hx : env.execute bd with
              | error m =>
                simp [performBuyBody, hp, hr, he, hlist, hk, hw, hx] at hout
              | ok txs =>
                simp [performBuyBody, hp, hr, he, hlist, hk, hw, hx] at hout
                rw [← hout]

theorem bestRoute_first_selected_witness :
    (∀ c ∈ [cand900], c.amountOut ≤ cand950.amountOut)
    ∧ (⟨cand950, ["tx1"]⟩ : SwapOutcome).best = cand950 := by
  have h := bestRoute_first_selected envOk (1 / 10)
  have hlist : getAllRouteComputeAmountOut
      (envOk.simulate (jsRound ((1 / 10) * LAMPORTS_PER_SOL))) = cand950 :: [cand900] := by
    rfl
  have h2 := h.2 cand950 [cand900] hlist
  exact ⟨h2.1, h2.2 ⟨cand950, ["tx1"]⟩ rfl⟩

/-- C4: route resolution fails exactly when amount-out simulation yields
zero viable candidates — when the candidate list is empty, `performBuy`'s
body raises an error rather than proceeding, and the no-route error arises
precisely when the preceding fetches succeeded and the candidate list is
empty (which happens precisely when the simulation yielded no viable
candidate). -/
theorem noRouteFound_iff_empty (env : SwapEnv) (amt : ℚ) :
    (env.simulate (jsRound (amt * LAMPORTS_PER_SOL)) = [] →
      exceptOk (performBuyBody env amt) = false)
    ∧ (performBuyBody env amt = Except.error SwapError.noRouteFound ↔
        (exceptOk env.fetchRoutePoolBasicInfo = true
         ∧ exceptOk env.fetchSwapRoutesData = true
         ∧ exceptOk env.getEpochInfo = true
         ∧ getAllRouteComputeAmountOut
             (env.simulate (jsRound (amt * LAMPORTS_PER_SOL))) = []))
    ∧ (getAllRouteComputeAmountOut (env.simulate (jsRound (amt * LAMPORTS_PER_SOL))) = []
        ↔ env.simulate (jsRound (amt * LAMPORTS_PER_SOL)) = []) := by
  have hemptyiff :
      getAllRouteComputeAmountOut (env.simulate (jsRound (amt * LAMPORTS_PER_SOL))) = []
        ↔ env.simulate (jsRound (amt * LAMPORTS_PER_SOL)) = [] := by
    constructor
    · intro h
      have hp := List.perm_insertionSort routeBetter
        (env.simulate (jsRound (amt * LAMPORTS_PER_SOL)))
      rw [getAllRouteComputeAmountOut] at h
      rw [h] at hp
      exact (hp.symm.eq_nil)
    · intro h
      rw [getAllRouteComputeAmountOut, h]
      rfl
  refine ⟨?_, ?_, hemptyiff⟩
  · intro hsim
    cases hp : env.fetchRoutePoolBasicInfo with
    | error m => simp [performBuyBody, hp, exceptOk]
    | ok pd =>
      cases hr : env.fetchSwapRoutesData with
      | error m => simp [performBuyBody, hp, hr, exceptOk]
      | ok rd =>
        cases he : env.getEpochInfo with
        | error m => simp [performBuyBody, hp, hr, he, exceptOk]
        | ok ep =>
          simp [performBuyBody, hp, hr, he, hemptyiff.mpr hsim, exceptOk]
  · constructor
    · intro hout
      cases hp : env.fetchRoutePoolBasicInfo with
      | error m => simp [performBuyBody, hp] at hout
      | ok pd =>
        cases hr : env.fetchSwapRoutesData with
        | error m => simp [performBuyBody, hp, hr] at hout
        | ok rd =>
          cases he : env.getEpochInfo with
          | error m => simp [performBuyBody, hp, hr, he] at hout
          | ok ep =>
            cases hlist : getAllRouteComputeAmountOut
                (env.simulate (jsRound (amt * LAMPORTS_PER_SOL))) with
            | nil => exact ⟨by simp [exceptOk, hp], by simp [exceptOk, hr],
                by simp [exceptOk, he], rfl⟩
            | cons best rest2 =>
              exfalso
              cases hk : env.computePoolToPoolKeys best with
              | error m => simp [performBuyBody, hp, hr, he, hlist, hk] at hout
              | ok pk =>
                cases hw : env.swap best pk with
                | error m => simp [performBuyBody, hp, hr, he, hlist, hk, hw] at hout
                | ok bd =>
                  cases hx : env.execute bd with
                  | error m =>
                    simp [performBuyBody, hp, hr, he, hlist, hk, hw, hx] at hout
                  | ok txs =>
                    simp [performBuyBody, hp, hr, he, hlist, hk, hw, hx] at hout
    · rintro ⟨hp, hr, he, hlist⟩
      cases hp2 : env.fetchRoutePoolBasicInfo with
      | error m => rw [hp2] at hp; simp [exceptOk] at hp
      | ok pd =>
        cases hr2 : env.fetchSwapRoutesData with
        | error m => rw [hr2] at hr; simp [exceptOk] at hr
        | ok rd =>
          cases he2 : env.getEpochInfo with
          | error m => rw [he2] at he; simp [exceptOk] at he
          | ok ep => simp [performBuyBody, hp2, hr2, he2, hlist]

theorem noRouteFound_iff_empty_witness :
    performBuyBody envNoRoute 1 = Except.error SwapError.noRouteFound
    ∧ exceptOk (performBuyBody envNoRoute 1) = false := by
  have h := noRouteFound_iff_empty envNoRoute 1
  exact ⟨h.2.1.mpr ⟨rfl, rfl, rfl, rfl⟩, h.1 rfl⟩

/-- C5: once the SDK handle is initialized, `performBuy` catches every
failure of its body at the wallet-attempt boundary and returns normally; a
caught failure is logged with the wallet identity and the reason; and in any
completed session every scheduled wallet task still contributes its own
swap-completion event to the trace — no wallet's failure aborts the others
or the process. -/
theorem performBuy_isolates_failures (ray : Raydium) (env : SwapEnv) (w : Wallet)
    (amt : ℚ) :
    exceptOk (performBuy (some ray) env w amt) = true
    ∧ (∀ e, performBuyBody env amt = Except.error e →
        performBuy (some ray) env w amt =
          Except.ok [LogEvent.errorInPerformBuy w.publicKey e])
    ∧ ∀ (ctx : SessionCtx) (bal0 : String → ℕ) (tr : List Event) (bal1 : String → ℕ),
        runSession ctx bal0 = Except.ok (tr, bal1) →
        ∀ t ∈ (runAutoBuy ctx.cfg (orchInputs ctx bal0)).2,
          Event.swapDone t.wallet.publicKey
            (caughtLogs (ctx.swapEnvOf t.wallet.publicKey) t.wallet t.amountSOL) ∈ tr := by
  refine ⟨?_, ?_, ?_⟩
  · rw [performBuy_some_eq]
    rfl
  · intro e he
    simp only [performBuy, he]
  · intro ctx bal0 tr bal1 h t ht
    exact sessionTrace_contains_swapDone ctx bal0 tr bal1 h t ht

theorem performBuy_isolates_failures_witness :
    performBuy (some raySample) envFail wSample 1 =
      Except.ok [LogEvent.errorInPerformBuy "W1" (SwapError.fetchPoolInfoFailed "boom")] := by
  have h := (performBuy_isolates_failures raySample envFail wSample 1).2.1
  exact h (SwapError.fetchPoolInfoFailed "boom") rfl

/-- C6: every task `runAutoBuy` schedules (no wallet is skipped there) has
its delay within the closed range `[minDelay, maxDelay]`, and the delay is
drawn uniformly from the integers of that range: for each admissible `k`,
the random draws mapped to `k` are exactly those in a half-open subinterval
of `[0, 1)` of width `1 / (maxDelay - minDelay + 1)` — the same for every
`k`. -/
theorem scheduled_delay_uniform (cfg : Config) (inputs : List OrchInput)
    (hab : cfg.minDelay ≤ cfg.maxDelay)
    (hr : ∀ inp ∈ inputs, 0 ≤ inp.randDelay ∧ inp.randDelay < 1) :
    (∀ t ∈ (runAutoBuy cfg inputs).2,
        cfg.minDelay ≤ t.delay ∧ t.delay ≤ cfg.maxDelay)
    ∧ ∀ r : ℚ, ∀ k : ℤ,
        (randomDelay r cfg.minDelay cfg.maxDelay = k ↔
          (((k - cfg.minDelay : ℤ) : ℚ)
              / ((cfg.maxDelay - cfg.minDelay + 1 : ℤ) : ℚ) ≤ r
           ∧ r < (((k - cfg.minDelay : ℤ) : ℚ) + 1)
              / ((cfg.maxDelay - cfg.minDelay + 1 : ℤ) : ℚ))) := by
  constructor
  · intro t ht
    rw [runAutoBuy_tasks_eq] at ht
    obtain ⟨inp, hinp, hstep⟩ := List.mem_filterMap.mp ht
    have hdelay := walletStep_some_delay cfg inp t hstep
    rw [hdelay]
    exact randomDelay_mem cfg.minDelay cfg.maxDelay inp.randDelay hab
      (hr inp hinp).1 (hr inp hinp).2
  · intro r k
    exact randomDelay_eq_iff cfg.minDelay cfg.maxDelay k r hab

theorem scheduled_delay_uniform_witness :
    ((100 : ℤ) ≤ 5000
     ∧ ∀ inp ∈ [(⟨wSample, 2000000000, 0, 0⟩ : OrchInput)],
         0 ≤ inp.randDelay ∧ inp.randDelay < 1)
    ∧ ∀ t ∈ (runAutoBuy cfgSample [(⟨wSample, 2000000000, 0, 0⟩ : OrchInput)]).2,
        cfgSample.minDelay ≤ t.delay ∧ t.delay ≤ cfgSample.maxDelay := by
  have hr : ∀ inp ∈ [(⟨wSample, 2000000000, 0, 0⟩ : OrchInput)],
      0 ≤ inp.randDelay ∧ inp.randDelay < 1 := by decide
  exact ⟨⟨by decide, hr⟩,
    (scheduled_delay_uniform cfgSample [⟨wSample, 2000000000, 0, 0⟩] (by decide) hr).1⟩

/-- C7: the orchestrator is fire-and-forget per wallet — its scheduling pass
factors into one independent decision per wallet, taken in a single pass
over the wallet list (one event per wallet, in order, each a function of
that wallet's own inputs only), the pass completes after emitting exactly
one decision per wallet, and no swap-execution event occurs during it: no
wallet's delay or swap is waited on before the next wallet is scheduled or
before the orchestrator's own run completes. -/
theorem runAutoBuy_fire_and_forget (cfg : Config) (inputs : List OrchInput) :
    (runAutoBuy cfg inputs).1 = inputs.map (decisionEvent cfg)
    ∧ (runAutoBuy cfg inputs).2 = inputs.filterMap (walletStep cfg)
    ∧ (runAutoBuy cfg inputs).1.length = inputs.length
    ∧ ∀ e ∈ (runAutoBuy cfg inputs).1, isSwapExecEvent e = false := by
  refine ⟨runAutoBuy_trace_eq cfg inputs, runAutoBuy_tasks_eq cfg inputs, ?_, ?_⟩
  · rw [runAutoBuy_trace_eq]
    exact List.length_map inputs (decisionEvent cfg)
  · intro e he
    rw [runAutoBuy_trace_eq] at he
    obtain ⟨inp, _, hinp⟩ := List.mem_map.mp he
    rcases decisionEvent_cases cfg inp with hd | ⟨t, _, hd⟩
    · rw [← hinp, hd]
      rfl
    · rw [← hinp, hd]
      rfl

theorem runAutoBuy_fire_and_forget_witness :
    (runAutoBuy cfgSample [(⟨wSample, 2000000000, 0, 0⟩ : OrchInput)]).1 =
      [(⟨wSample, 2000000000, 0, 0⟩ : OrchInput)].map (decisionEvent cfgSample) :=
  (runAutoBuy_fire_and_forget cfgSample [⟨wSample, 2000000000, 0, 0⟩]).1

lemma walletStep_sample :
    walletStep cfgSample ⟨wSample, 2000000000, 0, 0⟩ =
      some ⟨wSample, 1 / 10, 100⟩ := by
  norm_num [walletStep, capBuyAmount, randomDesired, randomDelay, cfgSample, wSample,
    LAMPORTS_PER_SOL, FEE_BUFFER_SOL]

lemma runAutoBuy_sample :
    runAutoBuy cfgSample [⟨wSample, 2000000000, 0, 0⟩] =
      ([Event.scheduled "W1" (1 / 10) 100], [⟨wSample, 1 / 10, 100⟩]) := by
  rw [runAutoBuy_cons, walletStep_sample]
  rfl

lemma performBuyBody_envOk :
    performBuyBody envOk (1 / 10) = Except.ok ⟨cand950, ["tx1"]⟩ := rfl

lemma caughtLogs_envOk :
    caughtLogs envOk wSample (1 / 10) = [LogEvent.swapSuccess "W1" ["tx1"]] := by
  unfold caughtLogs
  rw [performBuyBody_envOk]
  rfl

lemma sessionOut_sample_fst :
    (sessionOut ctxSample balSample).1 =
      [Event.snapshot "W1" 2000000000,
       Event.scheduled "W1" (1 / 10) 100,
       Event.snapshot "W1" 2000000000,
       Event.swapDone "W1" [LogEvent.swapSuccess "W1" ["tx1"]]] := by
  have h1 : initRaydium ctxSample.wallets = Except.ok ⟨wSample⟩ := rfl
  have h0 : ctxSample.cfg = cfgSample := rfl
  have h2 : orchInputs ctxSample balSample = [⟨wSample, 2000000000, 0, 0⟩] := rfl
  have h3 : ctxSample.swapEnvOf = fun _ => envOk := rfl
  simp only [sessionOut, runSession, h0, h1, h2, h3, runAutoBuy_sample,
    List.insertionSort, List.orderedInsert, executeTasks, performBuy_some_eq,
    caughtLogs_envOk]
  rfl

lemma sessionOut_sample_bal :
    (sessionOut ctxSample balSample).2 "W1" = 1894995000 := by
  have h1 : initRaydium ctxSample.wallets = Except.ok ⟨wSample⟩ := rfl
  have h0 : ctxSample.cfg = cfgSample := rfl
  have h2 : orchInputs ctxSample balSample = [⟨wSample, 2000000000, 0, 0⟩] := rfl
  have h3 : ctxSample.swapEnvOf = fun _ => envOk := rfl
  simp only [sessionOut, runSession, h0, h1, h2, h3, runAutoBuy_sample,
    List.insertionSort, List.orderedInsert, executeTasks, performBuy_some_eq,
    caughtLogs_envOk]
  rfl

/-- C8 counterexample: in the concrete single-wallet session `ctxSample`
(an admissible execution: the scheduled delay of 100 ms exceeds the main
task's duration), the end-of-session snapshot — the third trace event,
after the scheduling pass — still reads the session-start balance of
2000000000 lamports, while the scheduled swap, which takes effect only
afterwards, leaves the wallet at 1894995000 lamports: the final snapshot is
not taken after the swaps have taken effect and does not reflect them. -/
theorem finalSnapshot_misses_swaps_cex :
    sessionTrace ctxSample balSample =
      [Event.snapshot "W1" 2000000000,
       Event.scheduled "W1" (1 / 10) 100,
       Event.snapshot "W1" 2000000000,
       Event.swapDone "W1" [LogEvent.swapSuccess "W1" ["tx1"]]]
    ∧ sessionFinalBal ctxSample balSample "W1" = 1894995000
    ∧ (2000000000 : ℕ) ≠ 1894995000 := by
  refine ⟨sessionOut_sample_fst, sessionOut_sample_bal, by decide⟩

/-- C8 (amended): the end-of-session balance snapshot is taken after every
wallet has been evaluated and scheduled but before the scheduled swaps take
effect, so every snapshot of the session — the final Session Reporter pass
included — reads the session-start (pre-swap) balances, not the cumulative
effect of the session's swaps. -/
theorem finalSnapshot_preSwap (ctx : SessionCtx) (bal0 : String → ℕ) (tr : List Event)
    (bal1 : String → ℕ) (h : runSession ctx bal0 = Except.ok (tr, bal1)) :
    ∀ k v, Event.snapshot k v ∈ tr → v = bal0 k := by
  intro k v hmem
  rcases sessionTrace_forms ctx bal0 tr bal1 h _ hmem with
    ⟨w, _, he⟩ | ⟨inp, _, he⟩ | ⟨t, _, he⟩
  · injection he with h1 h2
    rw [h2, h1]
  · rcases decisionEvent_cases ctx.cfg inp with hd | ⟨t, _, hd⟩
    · rw [hd] at he
      exact Event.noConfusion he
    · rw [hd] at he
      exact Event.noConfusion he
  · exact Event.noConfusion he

theorem finalSnapshot_preSwap_witness :
    runSession ctxSample balSample = Except.ok (sessionOut ctxSample balSample)
    ∧ 2000000000 = balSample "W1" := by
  have hok : runSession ctxSample balSample = Except.ok (sessionOut ctxSample balSample) :=
    rfl
  have hmem : Event.snapshot "W1" 2000000000 ∈ (sessionOut ctxSample balSample).1 := by
    rw [sessionOut_sample_fst]
    simp
  exact ⟨hok, finalSnapshot_preSwap ctxSample balSample _ _ hok "W1" 2000000000 hmem⟩

/-- C10: calling `performBuy` with the global routing-service handle
uninitialized propagates the guard error to the caller (it is not caught by
the catch-all, which only guards the body); and under the entrypoint's
ordering — initialization awaited before orchestration — this branch is
unreachable: no completed session's trace contains any uncaught-throw event
from a scheduled swap. -/
theorem uninitialized_guard_unreachable :
    (∀ (env : SwapEnv) (w : Wallet) (amt : ℚ),
        performBuy none env w amt = Except.error SwapError.sdkMissing)
    ∧ ∀ (ctx : SessionCtx) (bal0 : String → ℕ) (tr : List Event) (bal1 : String → ℕ),
        runSession ctx bal0 = Except.ok (tr, bal1) →
        ∀ (k : String) (e : SwapError), Event.swapUncaught k e ∉ tr := by
  constructor
  · intro env w amt
    rfl
  · intro ctx bal0 tr bal1 h k e hmem
    rcases sessionTrace_forms ctx bal0 tr bal1 h _ hmem with
      ⟨w, _, he⟩ | ⟨inp, _, he⟩ | ⟨t, _, he⟩
    · exact Event.noConfusion he
    · rcases decisionEvent_cases ctx.cfg inp with hd | ⟨t, _, hd⟩
      · rw [hd] at he
        exact Event.noConfusion he
      · rw [hd] at he
        exact Event.noConfusion he
    · exact Event.noConfusion he

theorem uninitialized_guard_unreachable_witness :
    performBuy none envOk wSample 1 = Except.error SwapError.sdkMissing
    ∧ runSession ctxSample balSample = Except.ok (sessionOut ctxSample balSample)
    ∧ Event.swapUncaught "W1" SwapError.sdkMissing ∉ sessionTrace ctxSample balSample := by
  have hok : runSession ctxSample balSample = Except.ok (sessionOut ctxSample balSample) :=
    rfl
  exact ⟨uninitialized_guard_unreachable.1 envOk wSample 1, hok,
    uninitialized_guard_unreachable.2 ctxSample balSample _ _ hok "W1"
      SwapError.sdkMissing⟩
